import Mathlib

/-!
Shallow embedding of the m3bridge mail gateway core (Go) in Lean 4.

Go strings are byte sequences, modelled uniformly as `List Nat` (one
entry per byte, values below 256).  Calls of the Go standard library
made by the source (fmt.Sscanf, base64, sha256, strings helpers, mime
and multipart parsing) are modelled by explicit Lean definitions, each
marked in its doc comment.
-/

/-- A Go string or byte slice: a list of byte values. -/
abbrev GoStr := List Nat

/-- UTF-8 encoding of one unicode scalar value. -/
def utf8Bytes (c : Nat) : List Nat :=
  if c < 0x80 then [c]
  else if c < 0x800 then [0xC0 + c / 0x40, 0x80 + c % 0x40]
  else if c < 0x10000 then
    [0xE0 + c / 0x1000, 0x80 + c / 0x40 % 0x40, 0x80 + c % 0x40]
  else
    [0xF0 + c / 0x40000, 0x80 + c / 0x1000 % 0x40,
     0x80 + c / 0x40 % 0x40, 0x80 + c % 0x40]

/-- UTF-8 bytes of a Lean string literal, used to write Go string
constants of the source in the embedding. -/
def strBytes (s : String) : GoStr :=
  (s.data.map (fun ch => utf8Bytes ch.toNat)).flatten

/-- Value of one hexadecimal digit byte, if it is one. -/
def hexDigitVal (c : Nat) : Option Nat :=
  if 48 ≤ c ∧ c ≤ 57 then some (c - 48)
  else if 65 ≤ c ∧ c ≤ 70 then some (c - 55)
  else if 97 ≤ c ∧ c ≤ 102 then some (c - 87)
  else none

/-- Models fmt.Sscanf of a two-byte slice with format "%02X" into a byte
variable freshly initialised to zero.  The scanner first skips leading
whitespace: space, tab, vertical tab, form feed, and a carriage return
not followed by a newline (the fmt whitespace table covers bytes 9 to
13 and 32, with a carriage-return-newline pair read as a newline); a
newline is not whitespace for the Sscanf family and aborts the scan.
Then up to two hexadecimal digits are read; if no digit can be read
the scan fails and the variable keeps its zero value; if only the
first remaining byte is a digit, its value is the result. -/
def sscanf02X (c1 c2 : Nat) : Nat :=
  if c1 = 10 ∨ (c1 = 13 ∧ c2 = 10) then 0
  else if c1 = 32 ∨ c1 = 9 ∨ c1 = 11 ∨ c1 = 12 ∨ c1 = 13 then
    match hexDigitVal c2 with
    | some d => d
    | none => 0
  else
    match hexDigitVal c1 with
    | none => 0
    | some d1 =>
      match hexDigitVal c2 with
      | none => d1
      | some d2 => 16 * d1 + d2

/-- Inner byte loop of decodeQuotedPrintable: at each position, a byte
61 (the equals sign) followed by at least two further bytes consumes
three bytes and emits the byte scanned from the following two; any
other byte is emitted unchanged. -/
def decodeEscapes : GoStr → GoStr
  | 61 :: c1 :: c2 :: rest => sscanf02X c1 c2 :: decodeEscapes rest
  | c :: rest => c :: decodeEscapes rest
  | [] => []

/-- Models strings.TrimRight of a line with cut set CR LF: removes every
trailing byte 13 or 10. -/
def trimRightCRLF (l : GoStr) : GoStr :=
  (l.reverse.dropWhile (fun c => c == 13 || c == 10)).reverse

/-- One iteration body of the decodeQuotedPrintable loop: trim trailing
CR LF bytes; a line then ending in byte 61 is a soft break and loses
that byte, otherwise a newline byte is appended; finally the escape
pass runs over the result (including the appended newline byte). -/
def processLine (line : GoStr) : GoStr :=
  let t := trimRightCRLF line
  let t2 := if t.getLast? = some 61 then t.dropLast else t ++ [10]
  decodeEscapes t2

/-- Reading loop of decodeQuotedPrintable: cur is the part of the
current segment accumulated so far (modelling bufio ReadString reading
up to and including the first newline byte); on a newline the full
segment is processed with processLine; at end of input the final
segment is processed as well, which mirrors that the Go loop also
processes the empty read returned together with io.EOF when the input
ended in a newline. -/
def qpGo (cur : GoStr) : GoStr → GoStr
  | [] => processLine cur
  | c :: cs =>
    if c = 10 then processLine (cur ++ [10]) ++ qpGo [] cs
    else qpGo (cur ++ [c]) cs

/-- decodeQuotedPrintable of handler.go. -/
def decodeQuotedPrintable (s : GoStr) : GoStr :=
  qpGo [] s

/-- Splits a byte list at newline bytes; the separators are dropped and
a trailing newline yields a final empty segment. -/
def splitNl : GoStr → List GoStr
  | [] => [[]]
  | c :: cs =>
    if c = 10 then [] :: splitNl cs
    else
      match splitNl cs with
      | l :: ls => (c :: l) :: ls
      | [] => [[c]]

/-- Prepends accumulated bytes to the first segment of a segment list. -/
def consFirst (cur : GoStr) : List GoStr → List GoStr
  | [] => [cur]
  | l :: ls => (cur ++ l) :: ls

/-- ASCII lower casing of one byte. -/
def lowerByte (c : Nat) : Nat :=
  if 65 ≤ c ∧ c ≤ 90 then c + 32 else c

/-- Models strings.EqualFold on the ASCII strings the source compares
(transfer encoding names). -/
def eqFold (a b : GoStr) : Bool :=
  a.map lowerByte == b.map lowerByte

/-- Models strings.HasPrefix. -/
def hasPrefixB (pre s : GoStr) : Bool :=
  pre.isPrefixOf s

/-- Value of one byte of the standard base64 alphabet, if it is one. -/
def b64Val (c : Nat) : Option Nat :=
  if 65 ≤ c ∧ c ≤ 90 then some (c - 65)
  else if 97 ≤ c ∧ c ≤ 122 then some (c - 71)
  else if 48 ≤ c ∧ c ≤ 57 then some (c + 4)
  else if c = 43 then some 62
  else if c = 47 then some 63
  else none

/-- Decodes standard base64 input four characters at a time; padding
with byte 61 (the equals sign) is only allowed in the final quadruple. -/
def b64Quads : GoStr → Except Unit GoStr
  | [] => .ok []
  | c1 :: c2 :: c3 :: c4 :: rest =>
    match b64Val c1, b64Val c2 with
    | some v1, some v2 =>
      if c4 = 61 then
        if rest ≠ [] then .error ()
        else if c3 = 61 then .ok [v1 * 4 + v2 / 16]
        else
          match b64Val c3 with
          | some v3 => .ok [v1 * 4 + v2 / 16, v2 % 16 * 16 + v3 / 4]
          | none => .error ()
      else
        match b64Val c3, b64Val c4 with
        | some v3, some v4 =>
          match b64Quads rest with
          | .ok bs => .ok ([v1 * 4 + v2 / 16, v2 % 16 * 16 + v3 / 4, v3 % 4 * 64 + v4] ++ bs)
          | .error e => .error e
        | _, _ => .error ()
    | _, _ => .error ()
  | _ => .error ()

/-- Models base64.StdEncoding DecodeString of Go: carriage return and
newline bytes are ignored, the remaining input must consist of padded
quadruples over the standard alphabet; any other input is a decode
error (the Go function then returns a non-nil error and the source
discards its partial output). -/
def base64StdDecode (s : GoStr) : Except Unit GoStr :=
  b64Quads (s.filter (fun c => !(c == 13) && !(c == 10)))

/-- Content-Transfer-Encoding handling shared by extractBody and
extractMultipartBody: base64 input is decoded with the standard
decoder keeping the raw text on a decode error, quoted-printable input
goes through decodeQuotedPrintable, anything else passes unchanged. -/
def decodeTransfer (encoding : GoStr) (bodyText : GoStr) : GoStr :=
  if eqFold encoding (strBytes "base64") then
    match base64StdDecode bodyText with
    | .ok decoded => decoded
    | .error _ => bodyText
  else if eqFold encoding (strBytes "quoted-printable") then
    decodeQuotedPrintable bodyText
  else bodyText

/-- One body part as the multipart reader of the Go standard library
yields it to extractMultipartBody: mediaType is the media type that
mime.ParseMediaType returns for the part's own Content-Type header
(empty on a parse error, whose error value the source ignores),
encoding is the part's Content-Transfer-Encoding header, content is
the raw byte content read from the part. -/
structure MimePart where
  mediaType : GoStr
  encoding : GoStr
  content : GoStr
deriving DecidableEq

/-- Decoded text of one part, as computed inside the extraction loop. -/
def partText (p : MimePart) : GoStr :=
  decodeTransfer p.encoding p.content

/-- One iteration of the extraction loop of extractMultipartBody over
the accumulator (textPart, htmlPart): a part whose media type begins
with text/plain stores its decoded text into textPart, one beginning
with text/html stores it into htmlPart, a nested multipart part and
any other part leave the accumulator unchanged (the source continues
without recursing). -/
def extractStep (acc : GoStr × GoStr) (p : MimePart) : GoStr × GoStr :=
  if hasPrefixB (strBytes "text/plain") p.mediaType then (partText p, acc.2)
  else if hasPrefixB (strBytes "text/html") p.mediaType then (acc.1, partText p)
  else acc

/-- extractMultipartBody of handler.go, over the part list the
multipart reader yields in declared-boundary order: runs the
extraction loop from empty accumulators and then prefers a non-empty
htmlPart, then a non-empty textPart, and otherwise fails. -/
def extractMultipartBody (parts : List MimePart) : Except GoStr (GoStr × Bool) :=
  let acc := parts.foldl extractStep ([], [])
  if acc.2 ≠ [] then .ok (acc.2, true)
  else if acc.1 ≠ [] then .ok (acc.1, false)
  else .error (strBytes "本文が見つかりません")

/-- Decoded text of the last part of the given media type kind, empty
when no part of that kind occurs; used to characterise the extraction
loop. -/
def lastTextOf (kind : GoStr) (parts : List MimePart) : GoStr :=
  match (parts.filter (fun p => hasPrefixB kind p.mediaType)).getLast? with
  | some p => partText p
  | none => []

/-- A parsed RFC822 message as the Data handler sees it after the
library calls it makes: subject is the Subject header already decoded
by the mime word decoder, ccAddrs the address list that
mail.ParseAddressList yields for the Cc header (empty when the header
is absent or unparsable, matching the source which then keeps a nil
slice), contentType the media type that mime.ParseMediaType returns
for the Content-Type header (none on a parse error), transferEncoding
the Content-Transfer-Encoding header, rawBody the raw body bytes, and
parts the part list the multipart reader yields for the declared
boundary when the media type is a multipart one. -/
structure Message where
  subject : GoStr
  ccAddrs : List GoStr
  contentType : Option GoStr
  transferEncoding : GoStr
  rawBody : GoStr
  parts : List MimePart
deriving DecidableEq

/-- extractBody of handler.go: without a parseable Content-Type the
whole raw body is returned as plain text; a multipart media type
delegates to extractMultipartBody; otherwise the transfer encoding is
decoded and isHTML is whether the media type begins with text/html. -/
def extractBody (m : Message) : Except GoStr (GoStr × Bool) :=
  match m.contentType with
  | none => .ok (m.rawBody, false)
  | some mediaType =>
    if hasPrefixB (strBytes "multipart/") mediaType then
      extractMultipartBody m.parts
    else
      let bodyText := decodeTransfer m.transferEncoding m.rawBody
      .ok (bodyText, hasPrefixB (strBytes "text/html") mediaType)

/-- SMTP session state of handler.go; the backend and logger fields
carry no session state and are omitted.  The Go field from is named
fromAddr because from is reserved in Lean. -/
structure Session where
  fromAddr : GoStr
  toAddrs : List GoStr
  authenticated : Bool
deriving DecidableEq

/-- Session state built by NewSession: all fields keep their Go zero
values. -/
def newSession : Session :=
  { fromAddr := [], toAddrs := [], authenticated := false }

/-- Reset of handler.go: assigns the empty string to from and nil to
to, and returns without touching the connection. -/
def Reset (s : Session) : Session :=
  { s with fromAddr := [], toAddrs := [] }

/-- The one observable call Data makes on the external graph client:
either the single-recipient SendMail or the multi-recipient
SendMailWithMultipleRecipients, with the arguments passed. -/
inductive SendCall where
  | single (toAddr : GoStr) (subject : GoStr) (body : GoStr) (isHTML : Bool)
  | multi (toList : List GoStr) (cc : List GoStr) (subject : GoStr) (body : GoStr) (isHTML : Bool)
deriving DecidableEq

/-- Placeholder body substituted when extraction fails. -/
def placeholderBody : GoStr :=
  strBytes "（本文を抽出できませんでした）"

/-- Data of handler.go, from the point where the message has been
parsed (a parse failure returns earlier and is outside this model):
extracts the body, substituting the placeholder with isHTML false on
an extraction error; with a non-empty CC list it invokes the
multi-recipient send with the full session recipient list and the CC
list; otherwise an empty recipient list fails the command before any
send, and a non-empty one invokes the single-recipient send with the
first recipient only.  The returned value is the call made, whose own
error (if any) the source propagates after the call. -/
def Data (sessTo : List GoStr) (m : Message) : Except GoStr SendCall :=
  let ccAddresses := m.ccAddrs
  let bh :=
    match extractBody m with
    | .ok r => r
    | .error _ => (placeholderBody, false)
  if ccAddresses.length > 0 then
    .ok (.multi sessTo ccAddresses m.subject bh.1 bh.2)
  else
    match sessTo with
    | [] => .error (strBytes "受信者が指定されていません")
    | t :: _ => .ok (.single t m.subject bh.1 bh.2)

/-- Token record of token.go; time.Time is modelled as a nanosecond
count (Int), with the zero time at 0 so that IsZero is equality with
0. -/
structure TokenResponse where
  accessToken : GoStr
  tokenType : GoStr
  expiresIn : Int
  refreshToken : GoStr
  scope : GoStr
  cachedAt : Int
deriving DecidableEq

/-- Nanoseconds per second. -/
def nsPerSec : Int := 1000000000

/-- Wraps an integer into the signed 64-bit range, modelling Go int64
arithmetic. -/
def wrap64 (x : Int) : Int :=
  (x + 2 ^ 63) % 2 ^ 64 - 2 ^ 63

/-- Models time.Duration(n) * time.Second: the nanosecond count with
64-bit wraparound. -/
def secondsDur (n : Int) : Int :=
  wrap64 (n * nsPerSec)

/-- IsExpired of token.go at the given current time: a zero cachedAt is
always expired; otherwise the buffered now is compared with After,
which is a strict comparison. -/
def IsExpired (now : Int) (tr : TokenResponse) : Bool :=
  if tr.cachedAt = 0 then true
  else
    let expirationTime := tr.cachedAt + secondsDur tr.expiresIn
    decide (now + secondsDur 300 > expirationTime)

/-- SaveToken of token.go: stamps cachedAt with the current time on the
record itself (the caller holds the same pointer), serialises it and
writes the file.  Serialisation of this record cannot fail; a write
failure is an environment error outside the model, so the model always
produces the new file content, modelled as the record it serialises.
Returns the stamped record and the new file content. -/
def SaveToken (now : Int) (token : TokenResponse) : TokenResponse × Option TokenResponse :=
  let stamped := { token with cachedAt := now }
  (stamped, some stamped)

/-- LoadToken of token.go: a missing or unparsable cache file (none) is
an error; a parsed record that IsExpired is rejected with the token
expired error; otherwise the record is returned. -/
def LoadToken (now : Int) (file : Option TokenResponse) : Except GoStr TokenResponse :=
  match file with
  | none => .error (strBytes "cache read failed")
  | some token =>
    if IsExpired now token then .error (strBytes "token expired")
    else .ok token

/-- Right rotation of a 32-bit word by n places (0 < n < 32). -/
def rotr (n x : Nat) : Nat :=
  (x / 2 ^ n + x % 2 ^ n * 2 ^ (32 - n)) % 2 ^ 32

/-- Right shift of a 32-bit word. -/
def shr (n x : Nat) : Nat := x / 2 ^ n

/-- SHA-256 big Sigma 0. -/
def bigSigma0 (x : Nat) : Nat := rotr 2 x ^^^ rotr 13 x ^^^ rotr 22 x

/-- SHA-256 big Sigma 1. -/
def bigSigma1 (x : Nat) : Nat := rotr 6 x ^^^ rotr 11 x ^^^ rotr 25 x

/-- SHA-256 small sigma 0. -/
def smallSigma0 (x : Nat) : Nat := rotr 7 x ^^^ rotr 18 x ^^^ shr 3 x

/-- SHA-256 small sigma 1. -/
def smallSigma1 (x : Nat) : Nat := rotr 17 x ^^^ rotr 19 x ^^^ shr 10 x

/-- SHA-256 choice function. -/
def sha2Ch (e f g : Nat) : Nat := (e &&& f) ^^^ ((e ^^^ (2 ^ 32 - 1)) &&& g)

/-- SHA-256 majority function. -/
def sha2Maj (a b c : Nat) : Nat := (a &&& b) ^^^ (a &&& c) ^^^ (b &&& c)

/-- SHA-256 round constants. -/
def sha256K : List Nat :=
  [1116352408, 1899447441, 3049323471, 3921009573, 961987163, 1508970993,
   2453635748, 2870763221, 3624381080, 310598401, 607225278, 1426881987,
   1925078388, 2162078206, 2614888103, 3248222580, 3835390401, 4022224774,
   264347078, 604807628, 770255983, 1249150122, 1555081692, 1996064986,
   2554220882, 2821834349, 2952996808, 3210313671, 3336571891, 3584528711,
   113926993, 338241895, 666307205, 773529912, 1294757372, 1396182291,
   1695183700, 1986661051, 2177026350, 2456956037, 2730485921, 2820302411,
   3259730800, 3345764771, 3516065817, 3600352804, 4094571909, 275423344,
   430227734, 506948616, 659060556, 883997877, 958139571, 1322822218,
   1537002063, 1747873779, 1955562222, 2024104815, 2227730452, 2361852424,
   2428436474, 2756734187, 3204031479, 3329325298]

/-- SHA-256 initial hash value. -/
def sha256Init : List Nat :=
  [1779033703, 3144134277, 1013904242, 2773480762,
   1359893119, 2600822924, 528734635, 1541459225]

/-- Big-endian 8-byte rendering of a length in bits. -/
def beBytes8 (n : Nat) : List Nat :=
  [n / 2 ^ 56 % 256, n / 2 ^ 48 % 256, n / 2 ^ 40 % 256, n / 2 ^ 32 % 256,
   n / 2 ^ 24 % 256, n / 2 ^ 16 % 256, n / 2 ^ 8 % 256, n % 256]

/-- Big-endian 4-byte rendering of a 32-bit word. -/
def beBytes4 (n : Nat) : List Nat :=
  [n / 2 ^ 24 % 256, n / 2 ^ 16 % 256, n / 2 ^ 8 % 256, n % 256]

/-- SHA-256 message padding: a byte 0x80, zero bytes up to 56 modulo
64, and the bit length as 8 big-endian bytes. -/
def sha256Pad (msg : List Nat) : List Nat :=
  let l := msg.length
  let k := (55 + 64 - l % 64) % 64
  msg ++ [0x80] ++ List.replicate k 0 ++ beBytes8 (8 * l)

/-- Groups four bytes at a time into big-endian 32-bit words. -/
def words16 : List Nat → List Nat
  | b0 :: b1 :: b2 :: b3 :: rest =>
    (b0 * 2 ^ 24 + b1 * 2 ^ 16 + b2 * 2 ^ 8 + b3) :: words16 rest
  | _ => []

/-- Extends the 16-word message schedule by the given number of words. -/
def extendW (w : List Nat) : Nat → List Nat
  | 0 => w
  | n + 1 =>
    let prev := extendW w n
    let t := prev.length
    prev ++ [(smallSigma1 (prev.getD (t - 2) 0) + prev.getD (t - 7) 0 +
              smallSigma0 (prev.getD (t - 15) 0) + prev.getD (t - 16) 0) % 2 ^ 32]

/-- One SHA-256 compression round on the eight-word state. -/
def sha256Round (st : List Nat) (kw : Nat × Nat) : List Nat :=
  match st with
  | [a, b, c, d, e, f, g, hh] =>
    let t1 := (hh + bigSigma1 e + sha2Ch e f g + kw.1 + kw.2) % 2 ^ 32
    let t2 := (bigSigma0 a + sha2Maj a b c) % 2 ^ 32
    [(t1 + t2) % 2 ^ 32, a, b, c, (d + t1) % 2 ^ 32, e, f, g]
  | st => st

/-- SHA-256 compression of one 64-byte block into the hash state. -/
def sha256Compress (h : List Nat) (block : List Nat) : List Nat :=
  let w := extendW (words16 block) 48
  let st := (sha256K.zip w).foldl sha256Round h
  (h.zip st).map (fun p => (p.1 + p.2) % 2 ^ 32)

/-- Folds the compression over the given number of 64-byte blocks. -/
def sha256Blocks (h : List Nat) (msg : List Nat) : Nat → List Nat
  | 0 => h
  | n + 1 => sha256Blocks (sha256Compress h (msg.take 64)) (msg.drop 64) n

/-- Models crypto sha256 of Go (New, Write, Sum): the FIPS 180-4 digest
of a byte sequence, as 32 bytes. -/
def sha256Bytes (msg : GoStr) : GoStr :=
  let padded := sha256Pad msg
  let hs := sha256Blocks sha256Init padded (padded.length / 64)
  (hs.map beBytes4).flatten

/-- Byte of the URL-safe base64 alphabet for one 6-bit value. -/
def b64UrlChar (n : Nat) : Nat :=
  if n < 26 then 65 + n
  else if n < 52 then 97 + (n - 26)
  else if n < 62 then 48 + (n - 52)
  else if n = 62 then 45
  else 95

/-- Models base64.RawURLEncoding EncodeToString of Go: URL-safe
alphabet, no padding. -/
def b64RawUrl : GoStr → GoStr
  | b1 :: b2 :: b3 :: rest =>
    b64UrlChar (b1 / 4) :: b64UrlChar (b1 % 4 * 16 + b2 / 16) ::
    b64UrlChar (b2 % 16 * 4 + b3 / 64) :: b64UrlChar (b3 % 64) :: b64RawUrl rest
  | [b1, b2] => [b64UrlChar (b1 / 4), b64UrlChar (b1 % 4 * 16 + b2 / 16), b64UrlChar (b2 % 16 * 4)]
  | [b1] => [b64UrlChar (b1 / 4), b64UrlChar (b1 % 4 * 16)]
  | [] => []

/-- Challenge computation of generatePKCE: the unpadded URL-safe base64
encoding of the SHA-256 digest of the verifier bytes (sha256 New,
Write of the byte slice of the verifier, Sum). -/
def deriveChallenge (codeVerifier : GoStr) : GoStr :=
  b64RawUrl (sha256Bytes codeVerifier)

/-- generatePKCE of the Authenticator: randomBytes are the 32 bytes the
source has rand.Read fill (ignoring its error); the verifier is their
unpadded URL-safe base64 encoding and the challenge is derived from
the verifier.  The pair returned models the codeVerifier and
codeChallenge fields the source assigns. -/
def generatePKCE (randomBytes : GoStr) : GoStr × GoStr :=
  let codeVerifier := b64RawUrl randomBytes
  (codeVerifier, deriveChallenge codeVerifier)

/-- Reading of the spec sentence of claim C1, written from its words:
the first text/plain part and the first text/html part encountered are
retained and later parts of the same kind are ignored; after the
iteration a captured HTML part is returned with isHTML true, else a
captured plain part with isHTML false, else the no body error. -/
def specExtractFirst (parts : List MimePart) : Except GoStr (GoStr × Bool) :=
  let plainFirst := (parts.find? (fun p => hasPrefixB (strBytes "text/plain") p.mediaType)).map partText
  let htmlFirst := (parts.find? (fun p => hasPrefixB (strBytes "text/html") p.mediaType)).map partText
  match htmlFirst with
  | some h => .ok (h, true)
  | none =>
    match plainFirst with
    | some t => .ok (t, false)
    | none => .error (strBytes "本文が見つかりません")

/-- Reading of the escape rule in the spec sentence of claim C4,
written from its words: only a complete two-hex-digit escape decodes
to the corresponding byte, and every other byte passes through
unchanged. -/
def specQPEscapes : GoStr → GoStr
  | 61 :: c1 :: c2 :: rest =>
    match hexDigitVal c1, hexDigitVal c2 with
    | some d1, some d2 => (16 * d1 + d2) :: specQPEscapes rest
    | _, _ => 61 :: specQPEscapes (c1 :: c2 :: rest)
  | c :: rest => c :: specQPEscapes rest
  | [] => []

/-- Reading of the per-line rule in the spec sentence of claim C4: a
line ending in a bare equals sign loses it and gets no newline, every
other line is emitted decoded and followed by a newline. -/
def specQPLine (line : GoStr) : GoStr :=
  let t := trimRightCRLF line
  if t.getLast? = some 61 then specQPEscapes t.dropLast
  else specQPEscapes t ++ [10]

/-- Reading of the whole quoted-printable claim C4, written from its
words: line-by-line processing with specQPLine. -/
def specQPDecode (s : GoStr) : GoStr :=
  ((splitNl s).map specQPLine).flatten

/-- Reading of the expiry formula in the spec sentences of claim C3,
written from its words: expired exactly when cachedAt is unset or
now plus the 300 second buffer is at least cachedAt plus
expiresInSeconds (a non-strict comparison). -/
def specIsExpired (now : Int) (tr : TokenResponse) : Bool :=
  decide (tr.cachedAt = 0 ∨
    now + 300 * nsPerSec ≥ tr.cachedAt + tr.expiresIn * nsPerSec)

/-- Removes the text parts whose decoded content is empty; claim C10
says extraction treats such parts as if they were not there. -/
def dropEmptyTextParts (parts : List MimePart) : List MimePart :=
  parts.filter (fun p =>
    !((hasPrefixB (strBytes "text/plain") p.mediaType ||
       hasPrefixB (strBytes "text/html") p.mediaType) && partText p == []))

/-- Equality of Except values is decidable when it is for both sides. -/
instance {e a : Type} [DecidableEq e] [DecidableEq a] : DecidableEq (Except e a) := fun x y =>
  match x, y with
  | .ok v, .ok w =>
    if h : v = w then .isTrue (by rw [h])
    else .isFalse (fun hh => h (Except.ok.inj hh))
  | .error v, .error w =>
    if h : v = w then .isTrue (by rw [h])
    else .isFalse (fun hh => h (Except.error.inj hh))
  | .ok _, .error _ => .isFalse (fun hh => Except.noConfusion hh)
  | .error _, .ok _ => .isFalse (fun hh => Except.noConfusion hh)

example : decodeQuotedPrintable (strBytes "Caf=C3=A9") = [67, 97, 102, 195, 169, 10] := by decide
example : decodeQuotedPrintable (strBytes "ab=\ncd") = [97, 98, 99, 100, 10] := by decide
example : decodeQuotedPrintable [61, 90, 90] = [0, 10] := by decide
example : base64StdDecode (strBytes "aGVsbG8=") = .ok (strBytes "hello") := by decide
example : sha256Bytes (strBytes "abc") =
    [0xba, 0x78, 0x16, 0xbf, 0x8f, 0x01, 0xcf, 0xea,
     0x41, 0x41, 0x40, 0xde, 0x5d, 0xae, 0x22, 0x23,
     0xb0, 0x03, 0x61, 0xa3, 0x96, 0x17, 0x7a, 0x9c,
     0xb4, 0x10, 0xff, 0x61, 0xf2, 0x00, 0x15, 0xad] := by decide
set_option maxRecDepth 40000 in
example : sha256Bytes (strBytes "abcdbcdecdefdefgefghfghighijhijkijkljklmklmnlmnomnopnopq") =
    [0x24, 0x8d, 0x6a, 0x61, 0xd2, 0x06, 0x38, 0xb8,
     0xe5, 0xc0, 0x26, 0x93, 0x0c, 0x3e, 0x60, 0x39,
     0xa3, 0x3c, 0xe4, 0x59, 0x64, 0xff, 0x21, 0x67,
     0xf6, 0xec, 0xed, 0xd4, 0x19, 0xdb, 0x06, 0xc1] := by decide

theorem trimRightCRLF_append_nl (l : GoStr) :
    trimRightCRLF (l ++ [10]) = trimRightCRLF l := by
  simp [trimRightCRLF, List.dropWhile_cons]

theorem processLine_append_nl (l : GoStr) :
    processLine (l ++ [10]) = processLine l := by
  simp [processLine, trimRightCRLF_append_nl]

theorem splitNl_ne_nil (s : GoStr) : splitNl s ≠ [] := by
  induction s with
  | nil => simp [splitNl]
  | cons c cs ih =>
    simp only [splitNl]
    split
    · simp
    · split <;> simp

theorem consFirst_nil_acc (ls : List GoStr) (h : ls ≠ []) : consFirst [] ls = ls := by
  cases ls with
  | nil => exact absurd rfl h
  | cons l ls => simp [consFirst]

theorem qpGo_splitNl (s : GoStr) : ∀ cur : GoStr,
    qpGo cur s = ((consFirst cur (splitNl s)).map processLine).flatten := by
  induction s with
  | nil => intro cur; simp [qpGo, splitNl, consFirst]
  | cons c cs ih =>
    intro cur
    by_cases hc : c = 10
    · subst hc
      have h1 : qpGo cur (10 :: cs) = processLine (cur ++ [10]) ++ qpGo [] cs := by
        simp [qpGo]
      have h2 : splitNl (10 :: cs) = [] :: splitNl cs := by simp [splitNl]
      rw [h1, h2, ih []]
      rw [consFirst_nil_acc _ (splitNl_ne_nil cs)]
      simp [consFirst, processLine_append_nl]
    · have h1 : qpGo cur (c :: cs) = qpGo (cur ++ [c]) cs := by simp [qpGo, hc]
      rw [h1, ih (cur ++ [c])]
      cases hs : splitNl cs with
      | nil => exact absurd hs (splitNl_ne_nil cs)
      | cons l ls =>
        have h2 : splitNl (c :: cs) = (c :: l) :: ls := by simp [splitNl, hc, hs]
        rw [h2]
        simp [consFirst]

/-- Counterexample to claim C4 as stated: on the input consisting of an
equals sign followed by two bytes that are not hexadecimal digits, the
decoder does not pass the bytes through unchanged (it consumes the
three bytes and emits a zero byte), so it differs from the decoder the
claim describes (specQPDecode). -/
theorem decodeQuotedPrintable_passthrough_cex :
    decodeQuotedPrintable [61, 90, 90] ≠ specQPDecode [61, 90, 90] := by decide

/-- Claim C4 (amended): the decoder splits the input at newline bytes
and processes every segment, including an empty final one; per segment,
trailing CR LF bytes are stripped, a segment then ending in a bare
equals sign loses it and gets no appended newline (soft break), every
other segment gets a newline byte appended; then a left-to-right pass
replaces each equals sign having at least two following bytes by the
byte the Sscanf model reads from those two bytes (leading whitespace
bytes among tab, vertical tab, form feed, space and a lone carriage
return are skipped, a newline aborts the scan, then up to two
hexadecimal digits are read; the emitted byte is the scanned value, or
zero when the scan fails), passing all bytes outside such groups
through unchanged; in particular a well-formed two-hex-digit escape
decodes to the corresponding byte, the input Caf=C3=A9 decodes to the
UTF-8 bytes of Café followed by the appended newline, a soft line
break produces no embedded newline in the output, and an equals sign
followed by a lone carriage return and a digit emits the value of that
digit. -/
theorem decodeQuotedPrintable_line_oriented :
    (∀ s : GoStr, decodeQuotedPrintable s = ((splitNl s).map processLine).flatten)
    ∧ (∀ c1 c2 d1 d2 : Nat, hexDigitVal c1 = some d1 → hexDigitVal c2 = some d2 →
        sscanf02X c1 c2 = 16 * d1 + d2)
    ∧ decodeQuotedPrintable (strBytes "Caf=C3=A9") = strBytes "Café" ++ [10]
    ∧ decodeQuotedPrintable (strBytes "ab=\ncd") = strBytes "abcd" ++ [10]
    ∧ decodeQuotedPrintable (strBytes "ab=\r4") = [97, 98, 4, 10] := by
  refine ⟨fun s => ?_, fun c1 c2 d1 d2 h1 h2 => ?_, by decide, by decide, by decide⟩
  · rw [decodeQuotedPrintable, qpGo_splitNl]
    rw [consFirst_nil_acc _ (splitNl_ne_nil s)]
  · have hc1a : ¬(c1 = 10 ∨ (c1 = 13 ∧ c2 = 10)) := by
      rintro (rfl | ⟨rfl, rfl⟩) <;> simp [hexDigitVal] at h1
    have hc1b : ¬(c1 = 32 ∨ c1 = 9 ∨ c1 = 11 ∨ c1 = 12 ∨ c1 = 13) := by
      rintro (rfl | rfl | rfl | rfl | rfl) <;> simp [hexDigitVal] at h1
    simp [sscanf02X, hc1a, hc1b, h1, h2]

/-- Witness for the amended claim C4, discharging the hexadecimal digit
hypotheses at the bytes of the escape =C3. -/
theorem decodeQuotedPrintable_line_oriented_witness :
    sscanf02X 67 51 = 16 * 12 + 3 :=
  decodeQuotedPrintable_line_oriented.2.1 67 51 12 3 (by decide) (by decide)

theorem plain_html_disjoint (s : GoStr) :
    hasPrefixB (strBytes "text/plain") s = true →
    hasPrefixB (strBytes "text/html") s = true → False := by
  intro h1 h2
  rw [hasPrefixB, List.isPrefixOf_iff_prefix] at h1 h2
  have e1 := List.prefix_iff_eq_take.mp h1
  have e2 := List.prefix_iff_eq_take.mp h2
  have l1 : (strBytes "text/plain").length = 10 := by decide
  have l2 : (strBytes "text/html").length = 9 := by decide
  rw [l1] at e1
  rw [l2] at e2
  have : strBytes "text/html" = (strBytes "text/plain").take 9 := by
    rw [e1, e2, List.take_take]
    norm_num
  exact absurd this (by decide)

theorem getLast?_cons_of_ne {α : Type} (a : α) (l : List α) (h : l ≠ []) :
    (a :: l).getLast? = l.getLast? := by
  cases l with
  | nil => exact absurd rfl h
  | cons b bs => exact List.getLast?_cons_cons

theorem elim_getLast?_cons {α β : Type} (f : α → β) (x : α) (d : β) (l : List α) :
    ((x :: l).getLast?).elim d f = (l.getLast?).elim (f x) f := by
  cases hl : l.getLast? with
  | none =>
    have he : l = [] := List.getLast?_eq_none_iff.mp hl
    subst he
    simp
  | some q =>
    have hne : l ≠ [] := by intro he; subst he; simp at hl
    rw [getLast?_cons_of_ne _ _ hne, hl]
    simp

theorem foldl_extractStep_eq (parts : List MimePart) : ∀ acc : GoStr × GoStr,
    parts.foldl extractStep acc =
      (((parts.filter (fun p => hasPrefixB (strBytes "text/plain") p.mediaType)).getLast?).elim acc.1 partText,
       ((parts.filter (fun p => hasPrefixB (strBytes "text/html") p.mediaType)).getLast?).elim acc.2 partText) := by
  induction parts with
  | nil => intro acc; simp
  | cons p ps ih =>
    intro acc
    rw [List.foldl_cons, ih]
    cases hp : hasPrefixB (strBytes "text/plain") p.mediaType with
    | true =>
      have hh : hasPrefixB (strBytes "text/html") p.mediaType = false := by
        cases hh2 : hasPrefixB (strBytes "text/html") p.mediaType with
        | false => rfl
        | true => exact absurd hh2 (fun h2 => plain_html_disjoint p.mediaType hp h2)
      simp [extractStep, List.filter_cons, hp, hh, elim_getLast?_cons]
    | false =>
      cases hh : hasPrefixB (strBytes "text/html") p.mediaType with
      | true => simp [extractStep, List.filter_cons, hp, hh, elim_getLast?_cons]
      | false => simp [extractStep, List.filter_cons, hp, hh]

theorem lastTextOf_eq_elim (kind : GoStr) (parts : List MimePart) :
    lastTextOf kind parts =
      ((parts.filter (fun p => hasPrefixB kind p.mediaType)).getLast?).elim [] partText := by
  unfold lastTextOf
  cases hl : (parts.filter (fun p => hasPrefixB kind p.mediaType)).getLast? <;> simp

theorem extract_last_char (parts : List MimePart) :
    extractMultipartBody parts =
      (if lastTextOf (strBytes "text/html") parts ≠ [] then
         .ok (lastTextOf (strBytes "text/html") parts, true)
       else if lastTextOf (strBytes "text/plain") parts ≠ [] then
         .ok (lastTextOf (strBytes "text/plain") parts, false)
       else .error (strBytes "本文が見つかりません")) := by
  unfold extractMultipartBody
  rw [foldl_extractStep_eq parts ([], [])]
  rw [lastTextOf_eq_elim, lastTextOf_eq_elim]

theorem lastTextOf_nil_of (kind : GoStr) (parts : List MimePart)
    (h : ∀ p ∈ parts, hasPrefixB kind p.mediaType = true → partText p = []) :
    lastTextOf kind parts = [] := by
  rw [lastTextOf_eq_elim]
  cases hl : (parts.filter (fun p => hasPrefixB kind p.mediaType)).getLast? with
  | none => simp
  | some q =>
    have hmem := List.mem_of_mem_getLast? hl
    have hq := List.mem_filter.mp hmem
    have : partText q = [] := h q hq.1 (by simpa using hq.2)
    simp [this]

/-- Counterexample to claim C1 as stated: on a multipart body with two
text/plain parts with distinct contents, extraction differs from the
extractor the claim describes (specExtractFirst, which retains the
first part of each kind): the code returns the second part. -/
theorem extractMultipartBody_first_wins_cex :
    extractMultipartBody
        [{ mediaType := strBytes "text/plain", encoding := [], content := [65] },
         { mediaType := strBytes "text/plain", encoding := [], content := [66] }] ≠
      specExtractFirst
        [{ mediaType := strBytes "text/plain", encoding := [], content := [65] },
         { mediaType := strBytes "text/plain", encoding := [], content := [66] }] := by decide

/-- Claim C1 (amended): extraction iterates the parts in
declared-boundary order and retains the last text/plain part and the
last text/html part encountered (a later part of the same kind
overwrites an earlier one); nested multipart parts and parts of any
other kind never contribute (no recursion); after the iteration, a
non-empty retained HTML content is returned with isHTML true, else a
non-empty retained plain content with isHTML false, else extraction
fails with the no-body-found error. -/
theorem extractMultipartBody_retains_last :
    ∀ parts : List MimePart,
      extractMultipartBody parts =
        (if lastTextOf (strBytes "text/html") parts ≠ [] then
           .ok (lastTextOf (strBytes "text/html") parts, true)
         else if lastTextOf (strBytes "text/plain") parts ≠ [] then
           .ok (lastTextOf (strBytes "text/plain") parts, false)
         else .error (strBytes "本文が見つかりません")) :=
  extract_last_char

/-- Counterexample to claim C10 as stated: a text/plain part decoding
to the empty string is not treated as if it were absent, because it
overwrites the retained content of an earlier non-empty text/plain
part; removing the empty part changes the result from the
no-body-found error to a successful extraction. -/
theorem empty_part_overwrites_cex :
    extractMultipartBody
        [{ mediaType := strBytes "text/plain", encoding := [], content := [72] },
         { mediaType := strBytes "text/plain", encoding := [], content := [] }] ≠
      extractMultipartBody
        (dropEmptyTextParts
          [{ mediaType := strBytes "text/plain", encoding := [], content := [72] },
           { mediaType := strBytes "text/plain", encoding := [], content := [] }]) := by decide

/-- Claim C10 (amended): emptiness is judged on the retained (last)
content of each kind at the end of the iteration, not part by part: if
the retained HTML content is empty it does not take priority and a
non-empty retained plain content is returned with isHTML false; and a
multipart body all of whose text parts decode to the empty string
fails extraction with the no-body-found error. -/
theorem empty_retained_text_treated_absent :
    (∀ parts : List MimePart,
        lastTextOf (strBytes "text/html") parts = [] →
        lastTextOf (strBytes "text/plain") parts ≠ [] →
        extractMultipartBody parts = .ok (lastTextOf (strBytes "text/plain") parts, false))
    ∧ (∀ parts : List MimePart,
        (∀ p ∈ parts,
          (hasPrefixB (strBytes "text/plain") p.mediaType = true ∨
           hasPrefixB (strBytes "text/html") p.mediaType = true) → partText p = []) →
        extractMultipartBody parts = .error (strBytes "本文が見つかりません")) := by
  constructor
  · intro parts hh hp
    rw [extract_last_char]
    simp [hh, hp]
  · intro parts hall
    have h1 : lastTextOf (strBytes "text/plain") parts = [] :=
      lastTextOf_nil_of _ _ (fun p hm hpred => hall p hm (Or.inl hpred))
    have h2 : lastTextOf (strBytes "text/html") parts = [] :=
      lastTextOf_nil_of _ _ (fun p hm hpred => hall p hm (Or.inr hpred))
    rw [extract_last_char]
    simp [h1, h2]

/-- Witness for the amended claim C10: an empty text/html part loses
against a non-empty text/plain part, and a body whose only text part
decodes to the empty string fails extraction. -/
theorem empty_retained_text_witness :
    extractMultipartBody
        [{ mediaType := strBytes "text/html", encoding := [], content := [] },
         { mediaType := strBytes "text/plain", encoding := [], content := [72] }] =
      .ok ([72], false)
    ∧ extractMultipartBody
        [{ mediaType := strBytes "text/plain", encoding := [], content := [] }] =
      .error (strBytes "本文が見つかりません") := by
  constructor
  · exact (empty_retained_text_treated_absent.1
      [{ mediaType := strBytes "text/html", encoding := [], content := [] },
       { mediaType := strBytes "text/plain", encoding := [], content := [72] }]
      (by decide) (by decide)).trans (by decide)
  · exact empty_retained_text_treated_absent.2
      [{ mediaType := strBytes "text/plain", encoding := [], content := [] }]
      (by decide)

/-- Counterexample to claim C2 as stated: a submission with an empty
recipient list but a non-empty parsed CC list does not fail — it
invokes the multi-recipient send (with an empty TO list), because the
empty-recipient guard sits only in the CC-less branch. -/
theorem data_empty_recipients_cc_cex :
    Data []
        { subject := [], ccAddrs := [strBytes "cc@example.com"], contentType := none,
          transferEncoding := [], rawBody := [72, 105], parts := [] } =
      .ok (.multi [] [strBytes "cc@example.com"] [] [72, 105] false) := by decide

/-- Claim C2 (amended): with an empty parsed CC list, a submission with
an empty recipient list fails immediately with the no-recipient error
and no send is invoked; with a non-empty CC list the multi-recipient
send is invoked even when the recipient list is empty. -/
theorem data_requires_recipient_when_no_cc :
    (∀ m : Message, m.ccAddrs = [] →
        Data [] m = .error (strBytes "受信者が指定されていません"))
    ∧ (∀ m : Message, m.ccAddrs ≠ [] →
        ∃ b h, Data [] m = .ok (.multi [] m.ccAddrs m.subject b h)) := by
  constructor
  · intro m hcc
    simp [Data, hcc]
  · intro m hcc
    have hlen : 0 < m.ccAddrs.length := List.length_pos.mpr hcc
    cases hex : extractBody m with
    | ok r => exact ⟨r.1, r.2, by simp [Data, hex, hlen]⟩
    | error e => exact ⟨placeholderBody, false, by simp [Data, hex, hlen]⟩

/-- Witness for the amended claim C2 at concrete messages with and
without CC addresses. -/
theorem data_requires_recipient_when_no_cc_witness :
    Data []
        { subject := [], ccAddrs := [], contentType := none,
          transferEncoding := [], rawBody := [], parts := [] } =
      .error (strBytes "受信者が指定されていません")
    ∧ ∃ b h,
        Data []
            { subject := [], ccAddrs := [strBytes "cc@example.com"], contentType := none,
              transferEncoding := [], rawBody := [], parts := [] } =
          .ok (.multi [] [strBytes "cc@example.com"] [] b h) :=
  ⟨data_requires_recipient_when_no_cc.1 _ rfl,
   data_requires_recipient_when_no_cc.2 _ (by simp)⟩

/-- Claim C5: a non-empty parsed CC list selects the multi-recipient
send with the full declared recipient list and the full CC list; an
empty CC list selects the single-recipient send with exactly the first
declared recipient, even when more were declared. -/
theorem data_cc_branch_selection :
    (∀ (sessTo : List GoStr) (m : Message), m.ccAddrs ≠ [] →
        ∃ b h, Data sessTo m = .ok (.multi sessTo m.ccAddrs m.subject b h))
    ∧ (∀ (sessTo : List GoStr) (m : Message) (t : GoStr) (ts : List GoStr),
        m.ccAddrs = [] → sessTo = t :: ts →
        ∃ b h, Data sessTo m = .ok (.single t m.subject b h)) := by
  constructor
  · intro sessTo m hcc
    have hlen : 0 < m.ccAddrs.length := List.length_pos.mpr hcc
    cases hex : extractBody m with
    | ok r => exact ⟨r.1, r.2, by simp [Data, hex, hlen]⟩
    | error e => exact ⟨placeholderBody, false, by simp [Data, hex, hlen]⟩
  · intro sessTo m t ts hcc hto
    subst hto
    cases hex : extractBody m with
    | ok r => exact ⟨r.1, r.2, by simp [Data, hex, hcc]⟩
    | error e => exact ⟨placeholderBody, false, by simp [Data, hex, hcc]⟩

/-- Witness for claim C5: one CC address and two TO addresses take the
multi-recipient path with both TO addresses and the CC address; no CC
and two TO addresses take the single-recipient path with the first TO
address only. -/
theorem data_cc_branch_selection_witness :
    (∃ b h,
        Data [strBytes "a@x", strBytes "b@x"]
            { subject := [], ccAddrs := [strBytes "c@x"], contentType := none,
              transferEncoding := [], rawBody := [], parts := [] } =
          .ok (.multi [strBytes "a@x", strBytes "b@x"] [strBytes "c@x"] [] b h))
    ∧ ∃ b h,
        Data [strBytes "a@x", strBytes "b@x"]
            { subject := [], ccAddrs := [], contentType := none,
              transferEncoding := [], rawBody := [], parts := [] } =
          .ok (.single (strBytes "a@x") [] b h) :=
  ⟨data_cc_branch_selection.1 _ _ (by simp),
   data_cc_branch_selection.2 _ _ _ _ rfl rfl⟩

/-- Claim C9: when body extraction fails, the submission is not aborted
by that failure — the fixed placeholder body with isHTML false is
substituted and the send (multi-recipient when a CC list is present,
single-recipient when at least one recipient was declared) proceeds
with the placeholder. -/
theorem extraction_failure_nonfatal :
    ∀ (m : Message) (e : GoStr), extractBody m = .error e →
      (∀ sessTo : List GoStr, m.ccAddrs ≠ [] →
          Data sessTo m = .ok (.multi sessTo m.ccAddrs m.subject placeholderBody false))
      ∧ (∀ (t : GoStr) (ts : List GoStr), m.ccAddrs = [] →
          Data (t :: ts) m = .ok (.single t m.subject placeholderBody false)) := by
  intro m e hex
  constructor
  · intro sessTo hcc
    have hlen : 0 < m.ccAddrs.length := List.length_pos.mpr hcc
    simp [Data, hex, hlen]
  · intro t ts hcc
    simp [Data, hex, hcc]

/-- Witness for claim C9: a multipart message without any part fails
extraction, and its submission to one recipient proceeds with the
placeholder body. -/
theorem extraction_failure_nonfatal_witness :
    Data [strBytes "a@x"]
        { subject := [], ccAddrs := [], contentType := some (strBytes "multipart/mixed"),
          transferEncoding := [], rawBody := [], parts := [] } =
      .ok (.single (strBytes "a@x") [] placeholderBody false) :=
  (extraction_failure_nonfatal
      { subject := [], ccAddrs := [], contentType := some (strBytes "multipart/mixed"),
        transferEncoding := [], rawBody := [], parts := [] }
      (strBytes "本文が見つかりません") (by decide)).2 (strBytes "a@x") [] rfl

/-- Counterexample to claim C6 as stated: Reset does not return the
session to the state of a fresh connection, because the authenticated
flag is left set. -/
theorem reset_authenticated_cex :
    Reset { fromAddr := strBytes "a@x", toAddrs := [strBytes "b@x"], authenticated := true } ≠
      newSession := by decide

/-- Claim C6 (amended): on the explicit reset command the sender
address and the recipient list are cleared, the authenticated flag is
left unchanged, and the connection is not closed (Reset only rewrites
these two fields and returns). -/
theorem reset_clears_sender_recipients :
    ∀ s : Session,
      (Reset s).fromAddr = [] ∧ (Reset s).toAddrs = [] ∧
      (Reset s).authenticated = s.authenticated :=
  fun _ => ⟨rfl, rfl, rfl⟩

/-- Counterexample to claim C3 as stated: at the exact boundary where
now plus the 300 second buffer equals cachedAt plus expiresIn seconds,
the code (strict After comparison) says not expired while the claimed
non-strict rule says expired. -/
theorem isExpired_boundary_cex :
    IsExpired (1000000000 + 3300 * nsPerSec)
        { accessToken := [], tokenType := [], expiresIn := 3600,
          refreshToken := [], scope := [], cachedAt := 1000000000 } ≠
      specIsExpired (1000000000 + 3300 * nsPerSec)
        { accessToken := [], tokenType := [], expiresIn := 3600,
          refreshToken := [], scope := [], cachedAt := 1000000000 } := by decide

/-- Claim C3 (amended): IsExpired is true exactly when cachedAt is
zero/unset or now plus 300 seconds is strictly after cachedAt plus
expiresIn seconds (boundary equality counts as not expired); it is
true whenever cachedAt is zero; and with expiresIn 3600 a record
cached 3000 seconds ago is not expired while one cached 3400 seconds
ago is expired. -/
theorem isExpired_characterization :
    (∀ (now : Int) (tr : TokenResponse),
        IsExpired now tr = true ↔
          (tr.cachedAt = 0 ∨ now + secondsDur 300 > tr.cachedAt + secondsDur tr.expiresIn))
    ∧ (∀ (now : Int) (tr : TokenResponse), tr.cachedAt = 0 → IsExpired now tr = true)
    ∧ (∀ tr : TokenResponse, tr.cachedAt ≠ 0 → tr.expiresIn = 3600 →
        IsExpired (tr.cachedAt + 3000 * nsPerSec) tr = false)
    ∧ (∀ tr : TokenResponse, tr.cachedAt ≠ 0 → tr.expiresIn = 3600 →
        IsExpired (tr.cachedAt + 3400 * nsPerSec) tr = true) := by
  have hs300 : secondsDur 300 = 300 * nsPerSec := by decide
  have hs3600 : secondsDur 3600 = 3600 * nsPerSec := by decide
  refine ⟨?_, ?_, ?_, ?_⟩
  · intro now tr
    by_cases h0 : tr.cachedAt = 0
    · simp [IsExpired, h0]
    · simp [IsExpired, h0]
  · intro now tr h0
    simp [IsExpired, h0]
  · intro tr h0 h36
    simp only [IsExpired, h0, if_false, h36, hs300, hs3600]
    simp only [decide_eq_false_iff_not, nsPerSec]
    omega
  · intro tr h0 h36
    simp only [IsExpired, h0, if_false, h36, hs300, hs3600]
    simp only [decide_eq_true_eq, nsPerSec]
    omega

/-- Witness for the amended claim C3, discharging its hypotheses at a
record with zero cachedAt and at one cached at a non-zero time with
expiresIn 3600. -/
theorem isExpired_characterization_witness :
    IsExpired 5
        { accessToken := [], tokenType := [], expiresIn := 3600,
          refreshToken := [], scope := [], cachedAt := 0 } = true
    ∧ IsExpired ((10 : Int) * nsPerSec + 3000 * nsPerSec)
        { accessToken := [], tokenType := [], expiresIn := 3600,
          refreshToken := [], scope := [], cachedAt := 10 * nsPerSec } = false
    ∧ IsExpired ((10 : Int) * nsPerSec + 3400 * nsPerSec)
        { accessToken := [], tokenType := [], expiresIn := 3600,
          refreshToken := [], scope := [], cachedAt := 10 * nsPerSec } = true :=
  ⟨isExpired_characterization.2.1 5 _ rfl,
   isExpired_characterization.2.2.1 _ (by decide) rfl,
   isExpired_characterization.2.2.2 _ (by decide) rfl⟩

/-- Claim C8: when the record stamped at save time is not expired at
that same moment, SaveToken followed by LoadToken succeeds and returns
a record agreeing with the saved one on accessToken, refreshToken and
scope, with a non-zero cachedAt. -/
theorem save_load_roundtrip :
    ∀ (now : Int) (token : TokenResponse),
      IsExpired now { token with cachedAt := now } = false →
      ∃ r : TokenResponse,
        LoadToken now (SaveToken now token).2 = .ok r ∧
        r.accessToken = token.accessToken ∧
        r.refreshToken = token.refreshToken ∧
        r.scope = token.scope ∧ r.cachedAt ≠ 0 := by
  intro now token hfresh
  refine ⟨{ token with cachedAt := now }, ?_, rfl, rfl, rfl, ?_⟩
  · simp [LoadToken, SaveToken, hfresh]
  · intro h0
    have hn : now = 0 := h0
    rw [hn] at hfresh
    simp [IsExpired] at hfresh

/-- Witness for claim C8 at a concrete save time and token. -/
theorem save_load_roundtrip_witness :
    ∃ r : TokenResponse,
      LoadToken ((1000 : Int) * nsPerSec)
          (SaveToken ((1000 : Int) * nsPerSec)
            { accessToken := strBytes "at", tokenType := [], expiresIn := 3600,
              refreshToken := strBytes "rt", scope := strBytes "sc", cachedAt := 0 }).2 =
        .ok r ∧
      r.accessToken = strBytes "at" ∧
      r.refreshToken = strBytes "rt" ∧
      r.scope = strBytes "sc" ∧ r.cachedAt ≠ 0 :=
  save_load_roundtrip ((1000 : Int) * nsPerSec) _ (by decide)

/-- Claim C7: the verifier is the unpadded URL-safe base64 encoding of
the random bytes, the challenge is the unpadded URL-safe base64
encoding of the SHA-256 digest of the verifier bytes, and deriving the
challenge from the same verifier is deterministic (the derivation is a
pure function of the verifier). -/
theorem generatePKCE_challenge_formula :
    (∀ randomBytes : GoStr, (generatePKCE randomBytes).1 = b64RawUrl randomBytes)
    ∧ (∀ randomBytes : GoStr,
        (generatePKCE randomBytes).2 = b64RawUrl (sha256Bytes (generatePKCE randomBytes).1))
    ∧ (∀ codeVerifier : GoStr, deriveChallenge codeVerifier = deriveChallenge codeVerifier) :=
  ⟨fun _ => rfl, fun _ => rfl, fun _ => rfl⟩
